import Mathlib

/-!
Verification of the O2 primary-server / sim-worker device pair
(`src/run/O2PrimaryServerDevice.h` and the worker device header).

The state machine of `O2PrimaryServerDevice` is embedded shallowly:
the device fields relevant to request handling become a `SrvState`
record, and `HandleRequest` / `ReInit` become pure functions on it.
Counters are modelled as `Nat` because in the device they start at 0
and are only ever incremented or reset to 0; the slice-index
arithmetic of the chunk-serving path, which the C++ performs on `int`
with possibly negative intermediate values, is modelled on `Int`
exactly as written.  The background generator thread is abstracted by
an `upcoming` list: the events the generator will deliver, in order;
the `mGeneratorThread.join()` in the `mNeedNewEvent` branch becomes
popping the head of that list into the stack.
-/

namespace O2Sim

/-- Mirrors `o2::data::SubEventInfo` as filled by `HandleRequest`
(fields not written there are omitted).  `index` is set from
`m.mParticles.size()` before any particle is copied, hence always 0. -/
structure SubEventInfo where
  eventID : Int
  maxEvents : Nat
  part : Nat
  nparts : Nat
  seed : Int
  index : Nat
  deriving Repr, DecidableEq

/-- Mirrors `o2::data::PrimaryChunk`: sub-event info plus the copied
primaries.  Primaries are modelled as `Nat` identifiers. -/
structure PrimaryChunk where
  mSubEventInfo : SubEventInfo
  mParticles : List Nat
  deriving Repr, DecidableEq

/-- The fields of `O2PrimaryServerDevice` that the request-handling
path reads or writes.  `prims` is `mStack->getPrimaries()`; `upcoming`
abstracts the events the background `generateEvent` calls will
produce, consumed in order at each thread join. -/
structure SrvState where
  prims : List Nat
  upcoming : List (List Nat)
  chunkGranularity : Nat
  partCounter : Nat
  needNewEvent : Bool
  maxEvents : Nat
  eventCounter : Nat
  initialSeed : Int
  deriving Repr, DecidableEq

/-- `(int)std::ceil(prims.size() / (1. * mChunkGranularity))` followed by
`std::max(1, ...)` (line 334-336), as exact natural-number ceiling. -/
def numberOfParts (n g : Nat) : Nat :=
  max 1 ((n + g - 1) / g)

/-- The slice-bound computation of `HandleRequest` (lines 352-361):
`endindex = prims.size() - partCounter*granularity`,
`startindex = prims.size() - (partCounter+1)*granularity`,
each clamped below at 0. -/
def sliceStartEnd (n g p : Int) : Int × Int :=
  let endindex := n - p * g
  let startindex := n - (p + 1) * g
  let startC := if startindex < 0 then 0 else startindex
  let endC := if endindex < 0 then 0 else endindex
  (startC, endC)

/-- The copy loop of `HandleRequest` (lines 363-365): the particles
`prims[startindex], ..., prims[endindex - 1]` in order. -/
def slicePart (prims : List Nat) (g p : Nat) : List Nat :=
  let se := sliceStartEnd (prims.length : Int) (g : Int) (p : Int)
  (prims.drop se.1.toNat).take (se.2.toNat - se.1.toNat)

/-- The `mNeedNewEvent` branch of `HandleRequest` (lines 323-331): join
the generator thread (making the next generated event the current
stack content), clear `mNeedNewEvent`, reset `mPartCounter`, increment
`mEventCounter`. -/
def joinEvent (s : SrvState) : SrvState :=
  match s.upcoming with
  | [] =>
    { s with needNewEvent := false, partCounter := 0,
             eventCounter := s.eventCounter + 1 }
  | e :: rest =>
    { s with prims := e, upcoming := rest, needNewEvent := false,
             partCounter := 0, eventCounter := s.eventCounter + 1 }

/-- The `"primrequest"` path of `HandleRequest` (lines 317-405),
returning the successor state, the chunk put on the wire, and the
boolean the function returns (assuming the reply send succeeds, which
is the abstracted transport). -/
def HandlePrimRequest (s0 : SrvState) : SrvState × PrimaryChunk × Bool :=
  let workavailable := !(decide (s0.maxEvents ≤ s0.eventCounter) && s0.needNewEvent)
  let s := if s0.needNewEvent then joinEvent s0 else s0
  let n := s.prims.length
  let numberofparts := numberOfParts n s.chunkGranularity
  let info : SubEventInfo :=
    { eventID := if workavailable then (s.eventCounter : Int) else -1
      maxEvents := s.maxEvents
      part := s.partCounter + 1
      nparts := numberofparts
      seed := (s.eventCounter : Int) + s.initialSeed
      index := 0 }
  if workavailable then
    let particles := slicePart s.prims s.chunkGranularity s.partCounter
    let s1 := { s with partCounter := s.partCounter + 1 }
    let s2 := if s1.partCounter = numberofparts then
                { s1 with needNewEvent := true } else s1
    (s2, ⟨info, particles⟩, true)
  else
    (s, ⟨info, []⟩, false)

/-- The possible replies `HandleRequest` can put on the `primary-get`
channel. -/
inductive ServerReply where
  | configReply
  | chunkReply (c : PrimaryChunk)
  deriving Repr, DecidableEq

/-- The dispatch of `HandleRequest` (lines 302-405): `"configrequest"`
is answered with the serialized configuration; a string that is not
`"primrequest"` is logged and the function returns `true` WITHOUT
sending any reply (the `TODO` at line 313 records the unfulfilled
contract); `"primrequest"` runs the chunk-serving path. -/
def HandleRequest (s : SrvState) (req : String) :
    SrvState × Option ServerReply × Bool :=
  if req = "configrequest" then
    (s, some ServerReply.configReply, true)
  else if req ≠ "primrequest" then
    (s, none, true)
  else
    let r := HandlePrimRequest s
    (r.1, some (ServerReply.chunkReply r.2.1), r.2.2)

/-- Iterated `"primrequest"` handling: serve `k` requests from state
`s`, collecting the chunks in serving order. -/
def serveRequests (s : SrvState) : Nat → SrvState × List PrimaryChunk
  | 0 => (s, [])
  | Nat.succ k =>
    let r := HandlePrimRequest s
    let rest := serveRequests r.1 k
    (rest.1, r.2.1 :: rest.2)

/-- The fields of `o2::conf::SimReconfigData` that `ReInit` reads. -/
structure ReconfigData where
  stop : Bool
  startSeed : Int
  nEvents : Nat
  deriving Repr, DecidableEq

/-- `ReInit` (lines 216-251): on `stop` return `false` immediately;
otherwise install the new seed and event budget, reset the serving
counters, mark a new event needed (the relaunched `initGenerator`
will deliver it through `upcoming`), and return `true`. -/
def ReInit (s : SrvState) (r : ReconfigData) : Bool × SrvState :=
  if r.stop then
    (false, s)
  else
    (true, { s with initialSeed := r.startSeed, maxEvents := r.nEvents,
                    eventCounter := 0, partCounter := 0,
                    needNewEvent := true })

/-- The generator-cache consultation guard of `initGenerator`
(line 85): `conf.getGenerator().compare("extkin") != 0 ||
conf.getGenerator().compare("extkinO2") != 0`. -/
def cacheLookupTried (gen : String) : Bool :=
  (gen ≠ "extkin" : Bool) || (gen ≠ "extkinO2" : Bool)

/-- Outcome of the generator selection in `initGenerator`
(lines 84-105): the chosen instance (generator instances are modelled
by `Nat` identifiers), the cache afterwards, and whether a fresh
instance was constructed. -/
structure GenSelection where
  instanceId : Nat
  cache : List (String × Nat)
  fresh : Bool
  deriving Repr, DecidableEq

/-- `initGenerator`, restricted to the cache lookup / construction
logic (lines 84-105): if the guard of line 85 holds, look the identity
up in `mPrimGeneratorCache` and reuse a hit; otherwise construct a
fresh instance (`freshId`) and record it in the cache. -/
def initGeneratorSelect (cache : List (String × Nat)) (gen : String)
    (freshId : Nat) : GenSelection :=
  let cached := if cacheLookupTried gen then cache.lookup gen else none
  match cached with
  | some g => ⟨g, cache, false⟩
  | none => ⟨freshId, (gen, freshId) :: cache, true⟩

/-- Modelled from the spec: the `O2PrimaryServerState` enum of
`PrimaryServerState.h` (the header is not part of the sources given);
the spec lists the states `Initializing → WaitingEvent → ReadyToServe
→ Idle → Stopped`.  Only distinctness of the integer codes matters to
the worker. -/
inductive O2PrimaryServerState where
  | Initializing
  | WaitingEvent
  | ReadyToServe
  | Idle
  | Stopped
  deriving Repr, DecidableEq

/-- Modelled from the spec: the integer value `(int)state` of each
enum constant, in declaration order. -/
def stateCode : O2PrimaryServerState → Int
  | O2PrimaryServerState.Initializing => 0
  | O2PrimaryServerState.WaitingEvent => 1
  | O2PrimaryServerState.ReadyToServe => 2
  | O2PrimaryServerState.Idle => 3
  | O2PrimaryServerState.Stopped => 4

/-- `O2SimDevice::isWorkAvailable` (worker header, lines 146-183) as a
function of the send return code, the receive return code, and the
integer state carried by the reply. -/
def isWorkAvailable (sendcode recvcode state : Int) : Bool :=
  if 0 < sendcode then
    if 0 < recvcode then
      if state = stateCode O2PrimaryServerState.ReadyToServe then true
      else if state = stateCode O2PrimaryServerState.Initializing then true
      else if state = stateCode O2PrimaryServerState.WaitingEvent then true
      else if state = stateCode O2PrimaryServerState.Idle then false
      else false
    else false
  else false

/-- One outcome of `requestchannel.Receive` in `Kernel`: a positive
return code with a decoded chunk, the timeout code `-1`, or another
non-positive code. -/
inductive RecvOutcome where
  | success (c : PrimaryChunk)
  | timeout
  | failure (code : Int)
  deriving Repr, DecidableEq

/-- The sentinel test of `Kernel` (line 235):
`chunk->mParticles.size() == 0 && chunk->mSubEventInfo.eventID == -1`. -/
def isSentinel (c : PrimaryChunk) : Bool :=
  (c.mParticles.length = 0 : Bool) && (c.mSubEventInfo.eventID = -1 : Bool)

/-- The receive/retry do-while loop of `Kernel` (lines 222-272),
consuming one receive outcome per iteration.  Returns the chunks
handed to the transport-processing step and the boolean `Kernel`
returns.  `trial` is the loop counter; the loop repeats only on the
timeout code `-1` while `trial <= 2`. -/
def kernelReceiveLoop : List RecvOutcome → Nat → List PrimaryChunk × Bool
  | [], _ => ([], true)
  | RecvOutcome.success c :: _, _ =>
    if isSentinel c then ([], false) else ([c], true)
  | RecvOutcome.timeout :: rest, trial =>
    if trial + 1 ≤ 2 then kernelReceiveLoop rest (trial + 1)
    else ([], true)
  | RecvOutcome.failure _ :: _, _ => ([], true)

/-- `O2SimDevice::Kernel` (worker header, lines 185-278): optional
status poll, then the work request send, then the receive loop.
`statusResult` is `none` when no status channel is configured. -/
def Kernel (statusResult : Option Bool) (sendcode : Int)
    (outs : List RecvOutcome) : List PrimaryChunk × Bool :=
  match statusResult with
  | some avail =>
    if avail then
      if 0 < sendcode then kernelReceiveLoop outs 0 else ([], false)
    else ([], false)
  | none =>
    if 0 < sendcode then kernelReceiveLoop outs 0 else ([], false)

/-- The slice of `HandleRequest` expressed with natural-number
(truncated) subtraction; equal to `slicePart` (see
`slicePart_eq_sliceNat`). -/
def sliceNat (ev : List Nat) (g p : Nat) : List Nat :=
  (ev.drop (ev.length - (p + 1) * g)).take
    ((ev.length - p * g) - (ev.length - (p + 1) * g))

/-- The clamped `Int` slice bounds are the natural truncated
subtractions. -/
theorem sliceStartEnd_natCast (n g p : Nat) :
    sliceStartEnd (n : Int) (g : Int) (p : Int) =
      (((n - (p + 1) * g : Nat) : Int), ((n - p * g : Nat) : Int)) := by
  have h1 : ((p : Int) + 1) * (g : Int) = (((p + 1) * g : Nat) : Int) := by
    push_cast; ring
  have h2 : (p : Int) * (g : Int) = ((p * g : Nat) : Int) := by
    push_cast
    ring
  unfold sliceStartEnd
  dsimp only
  rw [h1, h2]
  simp only [Prod.mk.injEq]
  constructor <;> split_ifs <;> omega

/-- The particle list copied by `HandleRequest` equals the
natural-number slice. -/
theorem slicePart_eq_sliceNat (ev : List Nat) (g p : Nat) :
    slicePart ev g p = sliceNat ev g p := by
  unfold slicePart sliceNat
  rw [sliceStartEnd_natCast]
  simp

/-- Concatenating the first `j` parts in reverse serving order
recovers a suffix of the event: everything from position
`length - j*g` on. -/
theorem sliceNat_concat (ev : List Nat) (g : Nat) (j : Nat) :
    (((List.range j).map (sliceNat ev g)).reverse).flatten =
      ev.drop (ev.length - j * g) := by
  induction j with
  | zero => simp [List.drop_length]
  | succ j ih =>
    rw [List.range_succ, List.map_append, List.reverse_append]
    simp only [List.map_cons, List.map_nil, List.reverse_cons,
      List.reverse_nil, List.nil_append, List.cons_append,
      List.flatten_cons]
    rw [ih]
    have hmul : j * g ≤ (j + 1) * g := Nat.mul_le_mul_right g (by omega)
    have hab : ev.length - (j + 1) * g ≤ ev.length - j * g :=
      Nat.sub_le_sub_left hmul ev.length
    unfold sliceNat
    have hd : List.drop (ev.length - j * g) ev =
        List.drop ((ev.length - j * g) - (ev.length - (j + 1) * g))
          (List.drop (ev.length - (j + 1) * g) ev) := by
      rw [List.drop_drop, Nat.add_sub_cancel' hab]
    rw [hd, List.take_append_drop]

/-- The event length is at most `numberOfParts * granularity`: the
parts cover the whole event. -/
theorem le_numberOfParts_mul (n g : Nat) (hg : 1 ≤ g) :
    n ≤ numberOfParts n g * g := by
  unfold numberOfParts
  refine le_trans ?_
    (Nat.mul_le_mul_right g (le_max_right 1 ((n + g - 1) / g)))
  have hdm := Nat.div_add_mod (n + g - 1) g
  have hlt : (n + g - 1) % g < g := Nat.mod_lt _ hg
  rw [mul_comm] at hdm
  generalize ht : (n + g - 1) / g * g = t at hdm ⊢
  generalize hr : (n + g - 1) % g = r at hdm hlt
  omega

/-- All parts of an event, concatenated in reverse serving order, give
back exactly the event. -/
theorem sliceNat_concat_all (ev : List Nat) (g : Nat) (hg : 1 ≤ g) :
    (((List.range (numberOfParts ev.length g)).map (sliceNat ev g)).reverse).flatten
      = ev := by
  rw [sliceNat_concat,
    Nat.sub_eq_zero_of_le (le_numberOfParts_mul ev.length g hg), List.drop_zero]

/-- The chunk `HandleRequest` builds for part `p` (0-based) of an
event `ev` when serving with granularity `g`, post-join event counter
`ec`, event budget `maxE` and seed offset `seed`. -/
def mkChunk (ev : List Nat) (g maxE ec : Nat) (seed : Int) (p : Nat) :
    PrimaryChunk :=
  ⟨{ eventID := (ec : Int), maxEvents := maxE, part := p + 1,
     nparts := numberOfParts ev.length g, seed := (ec : Int) + seed,
     index := 0 },
   sliceNat ev g p⟩

/-- One `"primrequest"` when no new event is needed: the current part
is sliced and the part counter advances; the need-new-event flag is
raised exactly when this was the last part. -/
theorem HandlePrimRequest_noNew (s : SrvState) (hne : s.needNewEvent = false) :
    HandlePrimRequest s =
      ((if s.partCounter + 1 = numberOfParts s.prims.length s.chunkGranularity
          then { s with partCounter := s.partCounter + 1, needNewEvent := true }
          else { s with partCounter := s.partCounter + 1 }),
       mkChunk s.prims s.chunkGranularity s.maxEvents s.eventCounter
         s.initialSeed s.partCounter,
       true) := by
  unfold HandlePrimRequest mkChunk
  simp [hne, slicePart_eq_sliceNat]

/-- When a new event is needed and the budget is not exhausted, the
request behaves like a request against the joined state. -/
theorem HandlePrimRequest_join (s : SrvState) (hne : s.needNewEvent = true)
    (hlt : s.eventCounter < s.maxEvents) :
    HandlePrimRequest s = HandlePrimRequest (joinEvent s) := by
  have h2 : (joinEvent s).needNewEvent = false := by
    unfold joinEvent; cases s.upcoming <;> rfl
  unfold HandlePrimRequest
  simp [hne, h2, Nat.not_le.mpr hlt]

/-- Serving the remaining `m` parts of the current event: the part
counter advances to the part total, the need-new-event flag ends up
raised, and the replies are exactly the chunks of the remaining
parts in order. -/
theorem serveRequests_within (m : Nat) : ∀ s : SrvState,
    s.needNewEvent = false → 1 ≤ m →
    s.partCounter + m = numberOfParts s.prims.length s.chunkGranularity →
    serveRequests s m =
      ({ s with partCounter := s.partCounter + m, needNewEvent := true },
       (List.range' s.partCounter m).map
         (mkChunk s.prims s.chunkGranularity s.maxEvents s.eventCounter
           s.initialSeed)) := by
  induction m with
  | zero => intro s _ hm _; exact absurd hm (by decide)
  | succ m ih =>
    intro s hne _ hK
    cases Nat.eq_zero_or_pos m with
    | inl hm0 =>
      subst hm0
      have hK1 : s.partCounter + 1 =
          numberOfParts s.prims.length s.chunkGranularity := by omega
      simp only [serveRequests, HandlePrimRequest_noNew s hne, if_pos hK1]
      simp [List.range']
    | inr hm1 =>
      have hlt : ¬ (s.partCounter + 1 =
          numberOfParts s.prims.length s.chunkGranularity) := by omega
      simp only [serveRequests, HandlePrimRequest_noNew s hne, if_neg hlt]
      rw [ih { s with partCounter := s.partCounter + 1 } hne hm1
        (by show s.partCounter + 1 + m =
              numberOfParts s.prims.length s.chunkGranularity
            omega)]
      have harr : s.partCounter + 1 + m = s.partCounter + (m + 1) := by omega
      simp only [List.range'_succ, List.map_cons]
      rw [harr]

/-- Serving one whole pending event: starting with the need-new-event
flag raised, a pending generated event `ev` and budget left, the
`numberOfParts` requests join the event, bump the event counter, serve
all parts of `ev` in order, and leave the flag raised for the next
event. -/
theorem serveRequests_event (s : SrvState) (ev : List Nat)
    (rest : List (List Nat)) (hne : s.needNewEvent = true)
    (hup : s.upcoming = ev :: rest) (hlt : s.eventCounter < s.maxEvents) :
    serveRequests s (numberOfParts ev.length s.chunkGranularity) =
      ({ s with prims := ev, upcoming := rest,
                partCounter := numberOfParts ev.length s.chunkGranularity,
                needNewEvent := true,
                eventCounter := s.eventCounter + 1 },
       (List.range' 0 (numberOfParts ev.length s.chunkGranularity)).map
         (mkChunk ev s.chunkGranularity s.maxEvents (s.eventCounter + 1)
           s.initialSeed)) := by
  have hsj : joinEvent s =
      { s with prims := ev, upcoming := rest, needNewEvent := false,
               partCounter := 0, eventCounter := s.eventCounter + 1 } := by
    unfold joinEvent
    rw [hup]
  obtain ⟨K', hK'⟩ : ∃ K', numberOfParts ev.length s.chunkGranularity = K' + 1 :=
    ⟨numberOfParts ev.length s.chunkGranularity - 1, by
      have : 1 ≤ numberOfParts ev.length s.chunkGranularity :=
        le_max_left 1 _
      omega⟩
  rw [hK']
  simp only [serveRequests]
  rw [HandlePrimRequest_join s hne hlt, hsj]
  rw [HandlePrimRequest_noNew _ rfl]
  cases Nat.eq_zero_or_pos K' with
  | inl h0 =>
    subst h0
    have h1 : (0 + 1 = numberOfParts ev.length s.chunkGranularity) := by omega
    simp only [if_pos h1]
    simp [serveRequests, List.range', hK', mkChunk]
  | inr h1 =>
    have hne1 : ¬ (0 + 1 = numberOfParts ev.length s.chunkGranularity) := by
      omega
    simp only [if_neg hne1]
    rw [serveRequests_within K' _ rfl h1
      (by show 0 + 1 + K' = numberOfParts ev.length s.chunkGranularity
          omega)]
    simp only [List.range'_succ, List.map_cons]
    have hz : (0 : Nat) + 1 + K' = K' + 1 := by omega
    rw [hz]

/-- Serving `a + b` requests is serving `a`, then `b` from the
resulting state, with the chunk lists concatenated. -/
theorem serveRequests_add (a b : Nat) : ∀ s : SrvState,
    serveRequests s (a + b) =
      ((serveRequests (serveRequests s a).1 b).1,
       (serveRequests s a).2 ++ (serveRequests (serveRequests s a).1 b).2) := by
  induction a with
  | zero => intro s; simp [serveRequests]
  | succ a ih =>
    intro s
    rw [Nat.succ_add]
    simp only [serveRequests]
    rw [ih]
    simp

/-- C1: for every granularity `g ≥ 1` and every pending event, the
chunks served for that event before the end-of-work sentinel number
exactly `max(1, ceil(n/g))`, each carries a non-sentinel event id,
and concatenated in reverse serving order they are exactly the
original primaries — no duplication, no omission. -/
theorem event_chunks_partition (s : SrvState) (ev : List Nat)
    (rest : List (List Nat)) (hg : 1 ≤ s.chunkGranularity)
    (hne : s.needNewEvent = true) (hup : s.upcoming = ev :: rest)
    (hlt : s.eventCounter < s.maxEvents) :
    (serveRequests s (numberOfParts ev.length s.chunkGranularity)).2.length =
        numberOfParts ev.length s.chunkGranularity ∧
      ((serveRequests s (numberOfParts ev.length s.chunkGranularity)).2.map
          PrimaryChunk.mParticles).reverse.flatten = ev ∧
      (∀ c ∈ (serveRequests s
          (numberOfParts ev.length s.chunkGranularity)).2,
        c.mSubEventInfo.eventID = ((s.eventCounter : Int) + 1)) ∧
      (serveRequests s
        (numberOfParts ev.length s.chunkGranularity)).1.needNewEvent = true := by
  rw [serveRequests_event s ev rest hne hup hlt]
  refine ⟨?_, ?_, ?_, rfl⟩
  · simp
  · rw [List.map_map, ← List.range_eq_range']
    exact sliceNat_concat_all ev s.chunkGranularity hg
  · intro c hc
    simp only [List.mem_map] at hc
    obtain ⟨p, -, hp⟩ := hc
    rw [← hp]
    simp [mkChunk]

/-- Evaluation of the C1 partition property: a 3-primary event with
granularity 2 is served in 2 chunks that recompose the event. -/
theorem event_chunks_partition_check :
    (serveRequests ⟨[], [[5, 6, 7]], 2, 0, true, 1, 0, 0⟩ 2).2.length = 2 ∧
      ((serveRequests ⟨[], [[5, 6, 7]], 2, 0, true, 1, 0, 0⟩ 2).2.map
          PrimaryChunk.mParticles).reverse.flatten = [5, 6, 7] ∧
      (∀ c ∈ (serveRequests ⟨[], [[5, 6, 7]], 2, 0, true, 1, 0, 0⟩ 2).2,
        c.mSubEventInfo.eventID = (((0 : Nat) : Int) + 1)) ∧
      (serveRequests ⟨[], [[5, 6, 7]], 2, 0, true, 1, 0, 0⟩ 2).1.needNewEvent
        = true :=
  event_chunks_partition ⟨[], [[5, 6, 7]], 2, 0, true, 1, 0, 0⟩ [5, 6, 7] []
    (by decide) rfl rfl (by decide)

set_option maxRecDepth 100000 in
/-- C6 counterexample: with granularity 500 and a 1200-primary event,
the chunk sizes in serving order are NOT `[200, 500, 500]` (they are
`[500, 500, 200]`: the tail slice, of full granularity, is served
first and the 200-primary head remainder last). -/
theorem tail_slicing_claimed_order_false :
    ((serveRequests ⟨[], [List.replicate 1200 0], 500, 0, true, 2, 0, 0⟩
        3).2.map fun c => c.mParticles.length) ≠ [200, 500, 500] := by
  intro h
  have h2 : ((serveRequests ⟨[], [List.replicate 1200 0], 500, 0, true, 2, 0, 0⟩
      3).2.map fun c => c.mParticles.length) = [500, 500, 200] := by rfl
  exact absurd (h2.symm.trans h) (by decide)

/-- C6 (amended): with granularity 500 and a 1200-primary event, the
three requests for the event serve chunks of sizes 500, 500, 200 in
that order (tail-first slicing), and every reply reports
`nParts = 3`. -/
theorem tail_slicing_sizes_1200_500 (s : SrvState) (ev : List Nat)
    (rest : List (List Nat)) (hg : s.chunkGranularity = 500)
    (hev : ev.length = 1200) (hne : s.needNewEvent = true)
    (hup : s.upcoming = ev :: rest) (hlt : s.eventCounter < s.maxEvents) :
    ((serveRequests s 3).2.map fun c => c.mParticles.length) =
        [500, 500, 200] ∧
      ∀ c ∈ (serveRequests s 3).2, c.mSubEventInfo.nparts = 3 := by
  have hK : numberOfParts ev.length s.chunkGranularity = 3 := by
    rw [hev, hg]
    decide
  have hs := serveRequests_event s ev rest hne hup hlt
  rw [hK, hg] at hs
  rw [hs]
  constructor
  · simp only [List.range', List.map_cons, List.map_nil, mkChunk]
    simp [sliceNat, hev, hg]
  · intro c hc
    simp only [List.mem_map] at hc
    obtain ⟨p, -, hp⟩ := hc
    rw [← hp]
    show numberOfParts ev.length 500 = 3
    rw [hev]
    decide

/-- Evaluation of the amended C6 property at a concrete 1200-primary
event. -/
theorem tail_slicing_sizes_check :
    ((serveRequests ⟨[], [List.replicate 1200 0], 500, 0, true, 2, 0, 0⟩
        3).2.map fun c => c.mParticles.length) = [500, 500, 200] ∧
      ∀ c ∈ (serveRequests ⟨[], [List.replicate 1200 0], 500, 0, true, 2, 0, 0⟩
        3).2, c.mSubEventInfo.nparts = 3 :=
  tail_slicing_sizes_1200_500
    ⟨[], [List.replicate 1200 0], 500, 0, true, 2, 0, 0⟩
    (List.replicate 1200 0) [] rfl (by rw [List.length_replicate]) rfl rfl
    (by decide)

set_option maxRecDepth 100000 in
/-- C3 counterexample: with `maxEvents = 2` and single-part events,
the 3rd `"primrequest"` reply does carry `eventID = -1` and no
primaries, but its `nParts` is computed from the event generated in
the background (here 1200 primaries at granularity 500, so 3), not 1. -/
theorem sentinel_reply_nparts_three :
    ((serveRequests ⟨[], [[1], [2], List.replicate 1200 0], 500, 0, true,
        2, 0, 0⟩ 3).2.map fun c =>
          (c.mSubEventInfo.eventID, c.mSubEventInfo.nparts,
            c.mParticles.length)) =
        [(1, 1, 1), (2, 1, 1), (-1, 3, 0)] ∧
      ((-1 : Int), (3 : Nat), (0 : Nat)) ≠ ((-1 : Int), (1 : Nat), (0 : Nat)) := by
  constructor
  · rfl
  · decide

/-- C3 (amended): with `maxEvents = 2`, after the 2 events are fully
served, the next `"primrequest"` reply has `eventID = -1` and an
empty primary list, and reports `nParts` computed from the
background-generated third event (so `nParts = 1` exactly when that
event has at most `chunkGranularity` primaries). -/
theorem sentinel_after_two_events (s : SrvState) (ev1 ev2 ev3 : List Nat)
    (rest : List (List Nat)) (hne : s.needNewEvent = true)
    (hup : s.upcoming = ev1 :: ev2 :: ev3 :: rest)
    (hec : s.eventCounter = 0) (hmax : s.maxEvents = 2) :
    ∃ c, (serveRequests s (numberOfParts ev1.length s.chunkGranularity +
          numberOfParts ev2.length s.chunkGranularity + 1)).2.getLast? =
        some c ∧
      c.mSubEventInfo.eventID = -1 ∧ c.mParticles = [] ∧
      c.mSubEventInfo.nparts = numberOfParts ev3.length s.chunkGranularity := by
  have h1 := serveRequests_event s ev1 (ev2 :: ev3 :: rest) hne hup (by omega)
  have h2 : serveRequests
      { s with prims := ev1, upcoming := ev2 :: ev3 :: rest,
               partCounter := numberOfParts ev1.length s.chunkGranularity,
               needNewEvent := true, eventCounter := s.eventCounter + 1 }
      (numberOfParts ev2.length s.chunkGranularity) =
      ({ s with prims := ev2, upcoming := ev3 :: rest,
                partCounter := numberOfParts ev2.length s.chunkGranularity,
                needNewEvent := true, eventCounter := s.eventCounter + 2 },
       (List.range' 0 (numberOfParts ev2.length s.chunkGranularity)).map
         (mkChunk ev2 s.chunkGranularity s.maxEvents (s.eventCounter + 2)
           s.initialSeed)) :=
    serveRequests_event _ ev2 (ev3 :: rest) rfl rfl
      (by show s.eventCounter + 1 < s.maxEvents; omega)
  have h3 : HandlePrimRequest
      { s with prims := ev2, upcoming := ev3 :: rest,
               partCounter := numberOfParts ev2.length s.chunkGranularity,
               needNewEvent := true, eventCounter := s.eventCounter + 2 } =
      ({ s with prims := ev3, upcoming := rest, partCounter := 0,
                needNewEvent := false, eventCounter := s.eventCounter + 3 },
       ⟨{ eventID := -1, maxEvents := s.maxEvents, part := 1,
          nparts := numberOfParts ev3.length s.chunkGranularity,
          seed := ((s.eventCounter + 3 : Nat) : Int) + s.initialSeed,
          index := 0 }, []⟩,
       false) := by
    unfold HandlePrimRequest joinEvent
    simp [hec, hmax]
  have hsplit2 := serveRequests_add
    (numberOfParts ev1.length s.chunkGranularity)
    (numberOfParts ev2.length s.chunkGranularity) s
  rw [h1] at hsplit2
  dsimp only at hsplit2
  rw [h2] at hsplit2
  dsimp only at hsplit2
  have hsplit := serveRequests_add
    (numberOfParts ev1.length s.chunkGranularity +
      numberOfParts ev2.length s.chunkGranularity) 1 s
  rw [hsplit2] at hsplit
  dsimp only at hsplit
  rw [hsplit]
  dsimp only
  simp only [serveRequests, h3]
  refine ⟨⟨{ eventID := -1, maxEvents := s.maxEvents, part := 1,
             nparts := numberOfParts ev3.length s.chunkGranularity,
             seed := ((s.eventCounter + 3 : Nat) : Int) + s.initialSeed,
             index := 0 }, []⟩, ?_, rfl, rfl, rfl⟩
  rw [List.getLast?_concat]

/-- Evaluation of the amended C3 property: two single-part events,
then the sentinel whose `nParts` reflects the pending 3-primary event
at granularity 2. -/
theorem sentinel_after_two_events_check :
    ∃ c, (serveRequests ⟨[], [[1], [2], [9, 9, 9]], 2, 0, true, 2, 0, 0⟩
          3).2.getLast? = some c ∧
      c.mSubEventInfo.eventID = -1 ∧ c.mParticles = [] ∧
      c.mSubEventInfo.nparts = numberOfParts ([9, 9, 9] : List Nat).length 2 :=
  sentinel_after_two_events ⟨[], [[1], [2], [9, 9, 9]], 2, 0, true, 2, 0, 0⟩
    [1] [2] [9, 9, 9] [] rfl rfl rfl rfl

/-- C10: for every nonnegative primary count and part counter and
every positive chunk granularity, the clamped slice bounds of
`HandleRequest` satisfy `0 ≤ start ≤ end ≤ n`, so the copy loop stays
inside the primary sequence. -/
theorem sliceStartEnd_inBounds (n g p : Int) (hn : 0 ≤ n) (hp : 0 ≤ p)
    (hg : 1 ≤ g) :
    0 ≤ (sliceStartEnd n g p).1 ∧
      (sliceStartEnd n g p).1 ≤ (sliceStartEnd n g p).2 ∧
      (sliceStartEnd n g p).2 ≤ n := by
  have h1 : 0 ≤ p * g := mul_nonneg hp (by omega)
  have h2 : p * g ≤ (p + 1) * g := by nlinarith
  unfold sliceStartEnd
  dsimp only
  generalize p * g = a at h1 h2
  generalize (p + 1) * g = b at h2
  split_ifs <;> omega

/-- Evaluation of the C10 bound property at `n = 7`, `g = 3`, `p = 2`. -/
theorem sliceStartEnd_inBounds_check :
    0 ≤ (sliceStartEnd 7 3 2).1 ∧
      (sliceStartEnd 7 3 2).1 ≤ (sliceStartEnd 7 3 2).2 ∧
      (sliceStartEnd 7 3 2).2 ≤ 7 :=
  sliceStartEnd_inBounds 7 3 2 (by decide) (by decide) (by decide)

/-- C8: the worker's status poll returns true exactly when the send
and receive both succeeded and the reported state code is one of
`Initializing`, `WaitingEvent`, `ReadyToServe`; it returns false for
`Idle`, for any other code, and on send or receive failure. -/
theorem isWorkAvailable_true_iff (sc rc st : Int) :
    isWorkAvailable sc rc st = true ↔
      0 < sc ∧ 0 < rc ∧
        (st = stateCode O2PrimaryServerState.Initializing ∨
          st = stateCode O2PrimaryServerState.WaitingEvent ∨
          st = stateCode O2PrimaryServerState.ReadyToServe) := by
  unfold isWorkAvailable stateCode
  split_ifs <;> simp_all

/-- C9: a decoded chunk with no particles and `eventID = -1` makes the
worker kernel return false without processing it; any other decoded
chunk is handed to the transport-processing step and the kernel
returns true. -/
theorem kernel_sentinel_termination (sc : Int) (c : PrimaryChunk)
    (rest : List RecvOutcome) (hsc : 0 < sc) :
    ((c.mParticles = [] ∧ c.mSubEventInfo.eventID = -1) →
        Kernel none sc (RecvOutcome.success c :: rest) = ([], false)) ∧
      (¬(c.mParticles = [] ∧ c.mSubEventInfo.eventID = -1) →
        Kernel none sc (RecvOutcome.success c :: rest) = ([c], true)) := by
  have hs : isSentinel c = true ↔
      (c.mParticles = [] ∧ c.mSubEventInfo.eventID = -1) := by
    simp [isSentinel, List.length_eq_zero]
  constructor
  · intro h
    have hb : isSentinel c = true := hs.mpr h
    simp [Kernel, hsc, kernelReceiveLoop, hb]
  · intro h
    have hb : isSentinel c = false := by
      rcases Bool.eq_false_or_eq_true (isSentinel c) with ht | hf
      · exact absurd (hs.mp ht) h
      · exact hf
    simp [Kernel, hsc, kernelReceiveLoop, hb]

/-- Evaluation of the C9 dispatch at a concrete sentinel chunk. -/
theorem kernel_sentinel_termination_check :
    Kernel none 1
        (RecvOutcome.success ⟨⟨-1, 2, 1, 1, 0, 0⟩, []⟩ :: []) = ([], false) :=
  (kernel_sentinel_termination 1 ⟨⟨-1, 2, 1, 1, 0, 0⟩, []⟩ [] (by decide)).1
    (by exact ⟨rfl, rfl⟩)

/-- C7: `ReInit` returns false exactly when the reconfiguration
carries `stop`; otherwise it resets `eventCounter` and `partCounter`
to 0, marks a new event needed, and returns true, whatever the prior
state was. -/
theorem reinit_resets (s : SrvState) (r : ReconfigData) :
    ((ReInit s r).1 = false ↔ r.stop = true) ∧
      (r.stop = false →
        (ReInit s r).1 = true ∧ (ReInit s r).2.eventCounter = 0 ∧
          (ReInit s r).2.partCounter = 0 ∧
          (ReInit s r).2.needNewEvent = true) := by
  unfold ReInit
  cases hr : r.stop <;> simp [hr]

/-- Evaluation of the C7 reset property at a concrete non-stop
reconfiguration from a concrete mid-run state. -/
theorem reinit_resets_check :
    (ReInit ⟨[1, 2], [], 500, 3, false, 2, 2, 5⟩ ⟨false, 9, 4⟩).1 = true ∧
      (ReInit ⟨[1, 2], [], 500, 3, false, 2, 2, 5⟩ ⟨false, 9, 4⟩).2.eventCounter = 0 ∧
      (ReInit ⟨[1, 2], [], 500, 3, false, 2, 2, 5⟩ ⟨false, 9, 4⟩).2.partCounter = 0 ∧
      (ReInit ⟨[1, 2], [], 500, 3, false, 2, 2, 5⟩ ⟨false, 9, 4⟩).2.needNewEvent = true :=
  (reinit_resets ⟨[1, 2], [], 500, 3, false, 2, 2, 5⟩ ⟨false, 9, 4⟩).2 rfl

/-- C2: the reply to a `"primrequest"` is a chunk, and that chunk is
the end-of-work sentinel (no particles, `eventID = -1`) exactly when,
at the start of the request, the event budget is exhausted and a new
event would be needed. -/
theorem sentinel_iff_no_work (s : SrvState) :
    ∃ c, (HandleRequest s "primrequest").2.1 =
        some (ServerReply.chunkReply c) ∧
      ((c.mSubEventInfo.eventID = -1 ∧ c.mParticles = []) ↔
        (s.maxEvents ≤ s.eventCounter ∧ s.needNewEvent = true)) := by
  refine ⟨(HandlePrimRequest s).2.1, rfl, ?_⟩
  unfold HandlePrimRequest
  by_cases hw : s.maxEvents ≤ s.eventCounter ∧ s.needNewEvent = true
  · have hb : (!(decide (s.maxEvents ≤ s.eventCounter) && s.needNewEvent)) = false := by
      simp [hw.1, hw.2]
    simp only [hb]
    simp [hw]
  · have hb : (!(decide (s.maxEvents ≤ s.eventCounter) && s.needNewEvent)) = true := by
      rcases not_and_or.mp hw with h | h
      · simp [h]
      · simp at h
        simp [h]
    simp only [hb]
    have hnat : ∀ m : Nat, ((m : Int) = -1 ∧
        slicePart (if s.needNewEvent then joinEvent s else s).prims
            (if s.needNewEvent then joinEvent s else s).chunkGranularity
            (if s.needNewEvent then joinEvent s else s).partCounter = []) ↔ False := by
      intro m
      simp only [iff_false]
      rintro ⟨hm, -⟩
      omega
    split_ifs <;> simp_all

/-- C5 (code evaluation): a request that is neither `"configrequest"`
nor `"primrequest"` is answered with NO reply at all while the handler
still reports success. -/
theorem unknown_request_no_reply (s : SrvState) (req : String)
    (h1 : req ≠ "configrequest") (h2 : req ≠ "primrequest") :
    (HandleRequest s req).2.1 = none ∧ (HandleRequest s req).2.2 = true := by
  simp [HandleRequest, h1, h2]

/-- Evaluation of the C5 behaviour at the concrete request `"foo"`. -/
theorem unknown_request_no_reply_check :
    (HandleRequest ⟨[], [], 500, 0, true, 2, 0, 0⟩ "foo").2.1 = none ∧
      (HandleRequest ⟨[], [], 500, 0, true, 2, 0, 0⟩ "foo").2.2 = true :=
  unknown_request_no_reply ⟨[], [], 500, 0, true, 2, 0, 0⟩ "foo"
    (by decide) (by decide)

/-- C4 (code evaluation): the guard of line 85 is satisfied by the
identity `"extkin"` (it is satisfied by every string), so with a
cached `"extkin"` generator present, `initGenerator` reuses the cached
instance instead of constructing a fresh one. -/
theorem extkin_cache_lookup_not_skipped :
    cacheLookupTried "extkin" = true ∧
      initGeneratorSelect [("extkin", 7)] "extkin" 42 =
        ⟨7, [("extkin", 7)], false⟩ := by
  constructor
  · rfl
  · rfl

end O2Sim
